import Mathlib

/-!
Isqool: persistence and upsert layer

A shallow embedding of the three source files of `rothso/isqool`:

* `persist.go` : the transactional local store (`InsertIgnoringDupes`, the
  `Persist` methods, `SqliteStorage.Save`);
* `pkg/database/bigquery.go` : the warehouse store (`BigQuery.insert`,
  `isDuplicateError`) and the `MERGE` statement it issues;
* `cmd/isqool-department/main.go` : the course-name dedup loop.

Stateful code is written in state-passing style.  External libraries (gorp,
go-sqlite3, the BigQuery client and engine) only appear through the results
their calls return, which are inputs of the model.
-/

namespace Isqool

/-! ## Go error values -/

/-- Go `error` values, by dynamic type: `sqlite3.Error` (a struct value with
`Code` and `ExtendedCode`), `*googleapi.Error` (with an HTTP `Code`), or any
other dynamic type.  `msg` is what `Error()` renders. -/
inductive GoError where
  | sqlite3 (Code : Nat) (ExtendedCode : Nat) (msg : String)
  | googleapi (Code : Int) (msg : String)
  | other (msg : String)
  deriving DecidableEq, Repr

/-- The text of `err.Error()`, as printed by the `%v` verb. -/
def GoError.Error : GoError → String
  | .sqlite3 _ _ msg => msg
  | .googleapi _ msg => msg
  | .other msg => msg

/-- Go-sqlite3 `ErrConstraint`, the primary result code `SQLITE_CONSTRAINT`. -/
def ErrConstraint : Nat := 19

/-- Go-sqlite3 `ErrConstraintUnique`, that is `ErrConstraint | 8<<8`. -/
def ErrConstraintUnique : Nat := ErrConstraint ||| (8 <<< 8)

/-- Go-sqlite3 `ErrFull`, the result code `SQLITE_FULL`. -/
def ErrFull : Nat := 13

/-- Go-sqlite3 `ErrBusy`, the result code `SQLITE_BUSY`. -/
def ErrBusy : Nat := 5

/-! ## persist.go : record model -/

/-- Modelled from the spec: the `Course` struct is declared outside
`persist.go`; its natural key is (crn, term, instructor, name), the columns the
uniqueness constraint of table `courses` names.  An unset instructor is the
empty Go string. -/
structure Course where
  Name : String
  Term : String
  Crn : String
  Instructor : String
  deriving DecidableEq, Repr

/-- Modelled from the spec: the `Isq` payload struct is declared outside
`persist.go`; only its identity matters to the persistence layer. -/
structure Isq where
  payload : String
  deriving DecidableEq, Repr

/-- Modelled from the spec: the `Grades` payload struct is declared outside
`persist.go`. -/
structure Grades where
  payload : String
  deriving DecidableEq, Repr

/-- Modelled from the spec: the `Schedule` payload struct is declared outside
`persist.go`. -/
structure Schedule where
  payload : String
  deriving DecidableEq, Repr

/-- Go `CourseKey`: the `course_id` column of a feature row. -/
structure CourseKey where
  CourseID : Nat
  deriving DecidableEq, Repr

/-- Go `CourseEntity`: embedded `PrimaryKey` (field `ID`) and `Course`. -/
structure CourseEntity where
  ID : Nat
  course : Course
  deriving DecidableEq, Repr

/-- Go `IsqEntity`: embedded `PrimaryKey`, `CourseKey` and `Isq`. -/
structure IsqEntity where
  ID : Nat
  key : CourseKey
  isq : Isq
  deriving DecidableEq, Repr

/-- Go `GradesEntity`. -/
structure GradesEntity where
  ID : Nat
  key : CourseKey
  grades : Grades
  deriving DecidableEq, Repr

/-- Go `ScheduleEntity`. -/
structure ScheduleEntity where
  ID : Nat
  key : CourseKey
  schedule : Schedule
  deriving DecidableEq, Repr

/-- The values passed (by pointer) to `Transaction.Insert` in this program:
one constructor per table registered in `NewSqliteStorage`. -/
inductive Entity where
  | course (e : CourseEntity)
  | isq (e : IsqEntity)
  | grades (e : GradesEntity)
  | schedule (e : ScheduleEntity)
  deriving DecidableEq, Repr

/-- The three implementations of the Go interface `Feature`. -/
inductive Feature where
  | isq (i : Isq)
  | grades (g : Grades)
  | schedule (s : Schedule)
  deriving DecidableEq, Repr

/-! ## persist.go : transactions -/

/-- What one call `Insert(list...)` yields: the returned `error` (`none` is
`nil`), the pointed-to values after the call (gorp writes the generated key
into them), and the new state of the transaction. -/
structure InsertResult (σ : Type) where
  err : Option GoError
  list : List Entity
  state : σ

/-- Go interface `Transaction`, in state-passing style over a state `σ`. -/
structure Transaction (σ : Type) where
  Insert : List Entity → σ → InsertResult σ

/-- Go `InsertIgnoringDupes`: call `t.Insert` once; a `sqlite3.Error` whose
`ExtendedCode` is `ErrConstraintUnique` becomes `nil`, every other result is
returned as it is. -/
def InsertIgnoringDupes {σ : Type} (t : Transaction σ) : Transaction σ where
  Insert := fun list s =>
    let r := t.Insert list s
    match r.err with
    | some (.sqlite3 _ ext _) =>
        if ext = ErrConstraintUnique then { r with err := none } else r
    | _ => r

/-- A transaction that also records the argument list of every `Insert` call
made on it, oldest first. -/
def recording {σ : Type} (t : Transaction σ) : Transaction (σ × List (List Entity)) where
  Insert := fun list s =>
    let r := t.Insert list s.1
    { err := r.err, list := r.list, state := (r.state, s.2 ++ [list]) }

/-! ## persist.go : the `Persist` methods -/

/-- Go `func (c CourseEntity) Persist(tx Transaction) error`.  The receiver is
a value, so `&c` points to a copy of the entity owned by the method: the key gorp
writes into it (`r.list`) is gone when the method returns, and only the error
and the transaction state come back to the caller. -/
def CourseEntity.Persist {σ : Type} (c : CourseEntity) (tx : Transaction σ) (s : σ) :
    Option GoError × σ :=
  let r := tx.Insert [Entity.course c] s
  (r.err, r.state)

/-- Go `func (i Isq) Persist(tx Transaction, courseKey CourseKey) error`. -/
def Isq.Persist {σ : Type} (i : Isq) (tx : Transaction σ) (courseKey : CourseKey) (s : σ) :
    Option GoError × σ :=
  let r := tx.Insert [Entity.isq { ID := 0, key := courseKey, isq := i }] s
  (r.err, r.state)

/-- Go `func (g Grades) Persist(tx Transaction, courseKey CourseKey) error`. -/
def Grades.Persist {σ : Type} (g : Grades) (tx : Transaction σ) (courseKey : CourseKey) (s : σ) :
    Option GoError × σ :=
  let r := tx.Insert [Entity.grades { ID := 0, key := courseKey, grades := g }] s
  (r.err, r.state)

/-- Go `func (s Schedule) Persist(tx Transaction, courseKey CourseKey) error`. -/
def Schedule.Persist {σ : Type} (sch : Schedule) (tx : Transaction σ) (courseKey : CourseKey)
    (s : σ) : Option GoError × σ :=
  let r := tx.Insert [Entity.schedule { ID := 0, key := courseKey, schedule := sch }] s
  (r.err, r.state)

/-- Interface dispatch of `feature.Persist(tx, courseKey)`. -/
def Feature.Persist {σ : Type} (f : Feature) (tx : Transaction σ) (courseKey : CourseKey)
    (s : σ) : Option GoError × σ :=
  match f with
  | .isq i => i.Persist tx courseKey s
  | .grades g => g.Persist tx courseKey s
  | .schedule sch => sch.Persist tx courseKey s

/-- The inner loop of `Dataset.Persist`: `for _, feature := range features`,
returning at the first error. -/
def persistFeatures {σ : Type} (tx : Transaction σ) (courseKey : CourseKey) :
    List Feature → σ → Option GoError × σ
  | [], s => (none, s)
  | feature :: rest, s =>
    match feature.Persist tx courseKey s with
    | (some err, s1) => (some err, s1)
    | (none, s1) => persistFeatures tx courseKey rest s1

/-- Go `Dataset`, a `map[Course][]Feature`, as the list of its entries in the
order the `range` loop visits them. -/
structure Dataset where
  entries : List (Course × List Feature)
  deriving DecidableEq, Repr

/-- The outer loop of `Dataset.Persist` over the entries still to visit. -/
def persistEntries {σ : Type} (tx : Transaction σ) :
    List (Course × List Feature) → σ → Option GoError × σ
  | [], s => (none, s)
  | (course, features) :: rest, s =>
    let courseEntity : CourseEntity := { ID := 0, course := course }
    match courseEntity.Persist tx s with
    | (some err, s1) => (some err, s1)
    | (none, s1) =>
      let courseKey : CourseKey := { CourseID := courseEntity.ID }
      match persistFeatures tx courseKey features s1 with
      | (some err, s2) => (some err, s2)
      | (none, s2) => persistEntries tx rest s2

/-- Go `func (d Dataset) Persist(tx Transaction) error`. -/
def Dataset.Persist {σ : Type} (d : Dataset) (tx : Transaction σ) (s : σ) :
    Option GoError × σ :=
  persistEntries tx d.entries s

/-- Go interface `Persistable`. -/
structure Persistable where
  Persist : {σ : Type} → Transaction σ → σ → Option GoError × σ

/-- A `Dataset` used as a `Persistable`. -/
def Dataset.toPersistable (d : Dataset) : Persistable where
  Persist := fun tx s => d.Persist tx s

/-! ## persist.go : the SQLite store behind gorp -/

/-- The four tables registered in `NewSqliteStorage`: `courses`, `isq`,
`grades`, `sections`. -/
structure Tables where
  courses : List CourseEntity
  isq : List IsqEntity
  grades : List GradesEntity
  sections : List ScheduleEntity
  deriving DecidableEq, Repr

/-- The tables right after `CreateTablesIfNotExists` on a new file. -/
def Tables.empty : Tables := { courses := [], isq := [], grades := [], sections := [] }

/-- The columns of `SetUniqueTogether("Crn", "Term", "Instructor", "Name")`. -/
def uniqueTogether (c : Course) : String × String × String × String :=
  (c.Crn, c.Term, c.Instructor, c.Name)

/-- The key an `autoincrement` primary key column receives: one more than the
largest key in use (rows are never deleted by this program). -/
def nextID (ids : List Nat) : Nat := ids.foldl max 0 + 1

/-- The database as seen through the single handle of `SqliteStorage`:
the committed tables, the working copy of the transaction that is open (if
one is), the number of rows the disk can still take before `SQLITE_FULL`, the
error the next `Commit` will meet, if any, and the names of the registered
tables that do not exist in the file (`NewSqliteStorage` discards the error of
`CreateTablesIfNotExists`, so the store runs all the same when a table could
not be created). -/
structure Db where
  committed : Tables
  tx : Option Tables
  room : Nat
  commitErr : Option GoError
  missing : List String := []
  deriving DecidableEq, Repr

/-- The table a value is mapped to by `AddTableWithName` in
`NewSqliteStorage`. -/
def Entity.table : Entity → String
  | .course _ => "courses"
  | .isq _ => "isq"
  | .grades _ => "grades"
  | .schedule _ => "sections"

/-- Go-sqlite3 `ErrError`, the result code `SQLITE_ERROR`. -/
def ErrError : Nat := 1

/-- The error of a statement that names a table the file does not have. -/
def errNoSuchTable (table : String) : GoError :=
  GoError.sqlite3 ErrError ErrError ("no such table: " ++ table)

/-- The error database/sql returns for a statement on a finished transaction. -/
def errTxDone : GoError :=
  GoError.other "sql: transaction has already been committed or rolled back"

/-- The error of a violated `UNIQUE` constraint on table `courses`. -/
def errUnique : GoError :=
  GoError.sqlite3 ErrConstraint ErrConstraintUnique
    "UNIQUE constraint failed: courses.Crn, courses.Term, courses.Instructor, courses.Name"

/-- The error of a write on a full disk. -/
def errFull : GoError := GoError.sqlite3 ErrFull ErrFull "database or disk is full"

/-- The error of a write while another transaction holds the write lock. -/
def errBusy : GoError := GoError.sqlite3 ErrBusy ErrBusy "database is locked"

/-- One `INSERT` statement of gorp inside the open transaction.  The key
column is `autoincrement`, so the key held by the entity is not sent and the
generated one is written back into the pointed-to entity.  Only `courses` has
a uniqueness constraint.  A statement that fails on a missing table or on the
uniqueness constraint changes nothing and leaves the transaction open with
the rows it holds.  On `SQLITE_FULL` the engine itself cancels the whole
transaction: every row it held is discarded and no transaction is open any
more. -/
def gorpInsertOne (e : Entity) (db : Db) : Option GoError × Entity × Db :=
  match db.tx with
  | none => (some errTxDone, e, db)
  | some w =>
    if e.table ∈ db.missing then (some (errNoSuchTable e.table), e, db)
    else
    match e with
    | .course c =>
      if w.courses.any (fun r => decide (uniqueTogether r.course = uniqueTogether c.course)) then
        (some errUnique, e, db)
      else if db.room = 0 then (some errFull, e, { db with tx := none })
      else
        let c1 : CourseEntity := { c with ID := nextID (w.courses.map (fun r => r.ID)) }
        (none, Entity.course c1,
          { db with tx := some { w with courses := w.courses ++ [c1] }, room := db.room - 1 })
    | .isq i =>
      if db.room = 0 then (some errFull, e, { db with tx := none })
      else
        let i1 : IsqEntity := { i with ID := nextID (w.isq.map (fun r => r.ID)) }
        (none, Entity.isq i1,
          { db with tx := some { w with isq := w.isq ++ [i1] }, room := db.room - 1 })
    | .grades g =>
      if db.room = 0 then (some errFull, e, { db with tx := none })
      else
        let g1 : GradesEntity := { g with ID := nextID (w.grades.map (fun r => r.ID)) }
        (none, Entity.grades g1,
          { db with tx := some { w with grades := w.grades ++ [g1] }, room := db.room - 1 })
    | .schedule sc =>
      if db.room = 0 then (some errFull, e, { db with tx := none })
      else
        let sc1 : ScheduleEntity := { sc with ID := nextID (w.sections.map (fun r => r.ID)) }
        (none, Entity.schedule sc1,
          { db with tx := some { w with sections := w.sections ++ [sc1] }, room := db.room - 1 })

/-- Gorp `Transaction.Insert(list...)`: the entities are inserted one by one
and the first error is returned at once. -/
def gorpInsert : List Entity → Db → InsertResult Db
  | [], db => { err := none, list := [], state := db }
  | e :: es, db =>
    match gorpInsertOne e db with
    | (some err, e1, db1) => { err := some err, list := e1 :: es, state := db1 }
    | (none, e1, db1) =>
      let r := gorpInsert es db1
      { err := r.err, list := e1 :: r.list, state := r.state }

/-- The `*gorp.Transaction` returned by `dbmap.Begin()`. -/
def gorpTx : Transaction Db where
  Insert := gorpInsert

/-- Gorp `dbmap.Begin()`.  A transaction that was begun and never finished
keeps the write lock of the file; the model reports the resulting
`database is locked` at `Begin`. -/
def Begin (db : Db) : Except GoError Db :=
  match db.tx with
  | some _ => Except.error errBusy
  | none => Except.ok { db with tx := some db.committed }

/-- Gorp `tx.Commit()`: the working copy becomes the committed tables, unless
the commit meets `commitErr`, in which case the transaction is discarded. -/
def Commit (db : Db) : Option GoError × Db :=
  match db.tx with
  | none => (some errTxDone, db)
  | some w =>
    match db.commitErr with
    | some err => (some err, { db with tx := none })
    | none => (none, { db with committed := w, tx := none })

/-- Go `func (s SqliteStorage) Save(v Persistable) error`: begin, persist
through `InsertIgnoringDupes`, return the error of `Persist` if there is one,
commit otherwise.  No other transaction call is made. -/
def SqliteStorage.Save (db : Db) (v : Persistable) : Option GoError × Db :=
  match Begin db with
  | Except.error err => (some err, db)
  | Except.ok db1 =>
    match v.Persist (InsertIgnoringDupes gorpTx) db1 with
    | (some err, db2) => (some err, db2)
    | (none, db2) => Commit db2

/-- A new store: empty tables, no open transaction, `room` free rows. -/
def Db.fresh (room : Nat) : Db :=
  { committed := Tables.empty, tx := none, room := room, commitErr := none }

/-! ## pkg/database/bigquery.go : `BigQuery.insert` -/

/-- Go `isDuplicateError`: the error is a `*googleapi.Error` with `Code` 409. -/
def isDuplicateError (err : GoError) : Bool :=
  match err with
  | .googleapi code _ => decide (code = 409)
  | _ => false

/-- A reading of the wall clock, as `time.Now()` returns it: whole seconds
since the Unix epoch and the nanoseconds within that second. -/
structure Time where
  sec : Int
  nsec : Nat
  deriving DecidableEq, Repr

/-- Go `Time.Unix()`: the whole seconds since the epoch. -/
def Time.Unix (t : Time) : Int := t.sec

/-- The ASCII digit of a value below ten. -/
def digitChar (d : Nat) : Char := Char.ofNat (48 + d)

/-- The decimal digits of a natural number, most significant first. -/
def formatNat (n : Nat) : String :=
  if n = 0 then "0" else String.mk ((Nat.digits 10 n).reverse.map digitChar)

/-- Go `strconv.Itoa`: base-ten text with a leading minus sign for negatives.
(`int` is taken to be 64 bits wide, so `int(t.Unix())` changes nothing.) -/
def Itoa (i : Int) : String :=
  match i with
  | Int.ofNat n => formatNat n
  | Int.negSucc n => "-" ++ formatNat (n + 1)

/-- The staging table name of `insert`:
`tableName + "_" + strconv.Itoa(int(time.Now().Unix()))`. -/
def tempName (tableName : String) (now : Time) : String :=
  tableName ++ "_" ++ Itoa now.Unix

/-- The text of the query `insert` builds. -/
def mergeQuery (tableName tmp : String) : String :=
  "\n\t\tMERGE isqool." ++ tableName ++ " t\n\t\tUSING isqool." ++ tmp ++
  " s\n\t\tON t.course = s.course\n\t\t  AND t.term = s.term\n\t\t  AND t.crn = s.crn" ++
  "\n\t\t  AND (t.instructor = s.instructor\n        \tOR IFNULL(t.instructor, s.instructor) IS NULL)" ++
  "\n\t\tWHEN NOT MATCHED THEN\n\t\t  INSERT ROW"

/-- The requests `insert` sends to the warehouse. -/
inductive Op (α : Type) where
  | create (table : String)
  | put (table : String) (rows : List α)
  | query (sql : String)
  deriving DecidableEq, Repr

/-- What the outside world answers during one call of `insert`: the error
(`none` is `nil`) of `InferSchema`, of the two `Create` calls, of `Put`, of
`Run`, and the clock reading of `time.Now()`. -/
structure Replies where
  inferSchema : Option GoError
  createTable : Option GoError
  createArrivals : Option GoError
  put : Option GoError
  run : Option GoError
  now : Time
  deriving DecidableEq, Repr

/-- How a call ends: it returns an `error` value (`none` is `nil`) to its
caller, or it panics with a value and returns nothing. -/
inductive Outcome where
  | returned (err : Option GoError)
  | panicked (value : GoError)
  deriving DecidableEq, Repr

/-- Go `fmt.Errorf(format + ": %v", err)` for the formats used here. -/
def Errorf (what : String) (err : GoError) : GoError :=
  GoError.other (what ++ ": " ++ err.Error)

/-- The error that makes the block
`if err := x.Create(...); err != nil { if !isDuplicateError(err) { return ... } }`
return: the error of `Create`, unless it is nil or an already-exists error. -/
def createFailure (reply : Option GoError) : Option GoError :=
  match reply with
  | none => none
  | some err => if isDuplicateError err then none else some err

/-- Go `func (bq BigQuery) insert(st, tableName, data) error`: the requests
issued, in order, and how the call ends. -/
def BigQuery.insert {α : Type} (env : Replies) (tableName : String) (data : List α) :
    List (Op α) × Outcome :=
  match env.inferSchema with
  | some err => ([], Outcome.returned (some (Errorf "failed to infer schema" err)))
  | none =>
    let ops1 : List (Op α) := [Op.create tableName]
    match createFailure env.createTable with
    | some err => (ops1, Outcome.returned (some (Errorf "failed to create table" err)))
    | none =>
      let tmp := tempName tableName env.now
      let ops2 := ops1 ++ [Op.create tmp]
      match createFailure env.createArrivals with
      | some err => (ops2, Outcome.returned (some (Errorf "failed to create arrivals table" err)))
      | none =>
        let ops3 := ops2 ++ [Op.put tmp data]
        match env.put with
        | some err => (ops3, Outcome.returned (some (Errorf "failed to insert rows" err)))
        | none =>
          let ops4 := ops3 ++ [Op.query (mergeQuery tableName tmp)]
          match env.run with
          | some err => (ops4, Outcome.panicked (Errorf "failed to execute query" err))
          | none => (ops4, Outcome.returned none)

/-! ## The `MERGE` statement, under SQL three-valued logic -/

/-- A nullable SQL string value; `none` is `NULL`. -/
abbrev SqlString := Option String

/-- A nullable SQL boolean; `none` is `NULL`. -/
abbrev SqlBool := Option Bool

/-- SQL `a = b`: `NULL` if either side is `NULL`. -/
def sqlEq (a b : SqlString) : SqlBool :=
  match a, b with
  | some x, some y => some (decide (x = y))
  | _, _ => none

/-- SQL `p AND q`. -/
def sqlAnd (p q : SqlBool) : SqlBool :=
  match p, q with
  | some false, _ => some false
  | _, some false => some false
  | some true, some true => some true
  | _, _ => none

/-- SQL `p OR q`. -/
def sqlOr (p q : SqlBool) : SqlBool :=
  match p, q with
  | some true, _ => some true
  | _, some true => some true
  | some false, some false => some false
  | _, _ => none

/-- SQL `IFNULL(a, b)`: `b` if `a` is `NULL`, else `a`. -/
def sqlIfNull (a b : SqlString) : SqlString :=
  match a with
  | none => b
  | some x => some x

/-- SQL `a IS NULL`: never `NULL` itself. -/
def sqlIsNull (a : SqlString) : SqlBool := some a.isNone

/-- The columns of a warehouse row that the `ON` clause reads. -/
structure Row where
  course : SqlString
  term : SqlString
  crn : SqlString
  instructor : SqlString
  deriving DecidableEq, Repr

/-- The `ON` clause of the `MERGE` statement in `insert` (and in `main`), for
destination row `t` and staging row `s`; `AND` associates to the left. -/
def mergeOn (t s : Row) : SqlBool :=
  sqlAnd
    (sqlAnd (sqlAnd (sqlEq t.course s.course) (sqlEq t.term s.term)) (sqlEq t.crn s.crn))
    (sqlOr (sqlEq t.instructor s.instructor)
      (sqlIsNull (sqlIfNull t.instructor s.instructor)))

/-- A staging row is matched when the `ON` clause is true for some
destination row. -/
def matched (dest : List Row) (s : Row) : Bool :=
  dest.any (fun t => mergeOn t s == some true)

/-- The effect of `MERGE t USING s ON ... WHEN NOT MATCHED THEN INSERT ROW`
on the destination table: every staging row that is not matched is inserted;
nothing else changes. -/
def mergeInto (dest staging : List Row) : List Row :=
  dest ++ staging.filter (fun s => !matched dest s)

/-! ## cmd/isqool-department/main.go : course-name dedup -/

/-- Modelled from the spec: `scrape.DeptSchedule` is declared in `pkg/scrape`;
`main` reads its field `Name`, and the `MERGE` statement its columns. -/
structure DeptSchedule where
  Name : String
  Term : String
  Crn : String
  Instructor : Option String
  deriving DecidableEq, Repr

/-- The state of the dedup loop: the map `seen` (as its list of entries) and
the slice `courses`. -/
structure DedupState where
  seen : List (String × Bool)
  courses : List String
  deriving DecidableEq, Repr

/-- One iteration of `for _, row := range dept`: if `row.Name` is not a key of
`seen`, append it to `courses` and set `seen[row.Name] = true`. -/
def dedupStep (st : DedupState) (row : DeptSchedule) : DedupState :=
  match st.seen.lookup row.Name with
  | some _ => st
  | none => { seen := (row.Name, true) :: st.seen, courses := st.courses ++ [row.Name] }

/-- The slice `courses` after the dedup loop of `main`. -/
def dedupCourses (dept : List DeptSchedule) : List String :=
  (dept.foldl dedupStep { seen := [], courses := [] }).courses

/-! ## Loop invariant and sample values -/

/-- The loop invariant of the dedup loop after the rows named `p`: the keys
of `seen` are the members of `courses`, which has no repetition, holds the
names of `p`, and lists them by first occurrence in `p`. -/
def DedupInv (p : List String) (st : DedupState) : Prop :=
  (∀ n, st.seen.lookup n = none ↔ n ∉ st.courses) ∧
  st.courses.Nodup ∧
  (∀ n, n ∈ st.courses ↔ n ∈ p) ∧
  st.courses.Pairwise (fun a b => p.indexOf a < p.indexOf b)


/-- An entity as `Dataset.Persist` could only build it without the key of a
stored course: a course entity with `ID` 0, or a feature entity with
`CourseID` 0. -/
def zeroKeyed : Entity → Bool
  | .course e => e.ID == 0
  | .isq e => e.key.CourseID == 0
  | .grades e => e.key.CourseID == 0
  | .schedule e => e.key.CourseID == 0

/-- Every argument list that was logged after `log` holds zero-keyed entities
only. -/
def OnlyZeroKeyedSince (log log1 : List (List Entity)) : Prop :=
  ∀ l ∈ log1, l ∈ log ∨ ∀ e ∈ l, zeroKeyed e = true

/-- Destination row of the spec example: instructor not yet assigned. -/
def rowUnassigned : Row :=
  { course := some "CS101", term := some "Spring2019", crn := some "1234", instructor := none }

/-- The same section with instructor Dr. Smith. -/
def rowSmith : Row :=
  { course := some "CS101", term := some "Spring2019", crn := some "1234",
    instructor := some "Dr. Smith" }

/-- The same section with instructor Dr. Jones. -/
def rowJones : Row :=
  { course := some "CS101", term := some "Spring2019", crn := some "1234",
    instructor := some "Dr. Jones" }

/-- A course offering. -/
def sampleCourse : Course :=
  { Name := "Algorithms", Term := "Spring2019", Crn := "1234", Instructor := "Dr. Smith" }

/-- An aggregate: one course with four features. -/
def sampleDataset : Dataset :=
  { entries := [(sampleCourse,
      [Feature.isq { payload := "isq-1" }, Feature.grades { payload := "grades-1" },
       Feature.schedule { payload := "schedule-1" }, Feature.isq { payload := "isq-2" }])] }

/-- A store whose file has no table `sections`; the other three tables exist
and are empty. -/
def storeWithoutSections : Db :=
  { committed := Tables.empty, tx := none, room := 100, commitErr := none,
    missing := ["sections"] }

/-- Replies of a call in which every phase succeeds except the merge query. -/
def repliesRunFails : Replies :=
  { inferSchema := none, createTable := some (GoError.googleapi 409 "Already Exists"),
    createArrivals := none, put := none, run := some (GoError.other "backend error"),
    now := { sec := 1550000000, nsec := 0 } }


/-! ## Theorems -/

/-- C5: the wrapper calls the wrapped `Insert` exactly once with the same
arguments (same resulting state and written-back values; a recording
transaction logs exactly one call, with the given list), returns nil exactly
when the wrapped call returned nil or a `sqlite3.Error` whose `ExtendedCode`
is `ErrConstraintUnique`, and returns every other error unchanged. -/
theorem InsertIgnoringDupes_spec {σ : Type} (t : Transaction σ) (list : List Entity) (s : σ)
    (log : List (List Entity)) :
    ((InsertIgnoringDupes (recording t)).Insert list (s, log)).state
        = ((t.Insert list s).state, log ++ [list]) ∧
    ((InsertIgnoringDupes t).Insert list s).state = (t.Insert list s).state ∧
    ((InsertIgnoringDupes t).Insert list s).list = (t.Insert list s).list ∧
    (((InsertIgnoringDupes t).Insert list s).err = none ↔
      ((t.Insert list s).err = none ∨
        ∃ code msg, (t.Insert list s).err = some (GoError.sqlite3 code ErrConstraintUnique msg))) ∧
    (¬ ((t.Insert list s).err = none ∨
        ∃ code msg, (t.Insert list s).err = some (GoError.sqlite3 code ErrConstraintUnique msg)) →
      ((InsertIgnoringDupes t).Insert list s).err = (t.Insert list s).err) := by
  refine ⟨?_, ?_, ?_, ?_, ?_⟩
  · simp only [InsertIgnoringDupes, recording]
    split
    · split <;> rfl
    · rfl
  · simp only [InsertIgnoringDupes]
    split
    · split <;> rfl
    · rfl
  · simp only [InsertIgnoringDupes]
    split
    · split <;> rfl
    · rfl
  · simp only [InsertIgnoringDupes]
    split
    · rename_i code ext msg heq
      split
      · rename_i hext
        subst hext
        simp only [true_iff]
        exact Or.inr ⟨code, msg, heq⟩
      · rename_i hext
        rw [heq]
        simp only [reduceCtorEq, false_or, false_iff]
        rintro ⟨c, m, h⟩
        injection h with h
        injection h with h1 h2 h3
        exact hext h2
    · rename_i hne
      constructor
      · exact Or.inl
      · rintro (h | ⟨c, m, h⟩)
        · exact h
        · exact absurd h (hne c ErrConstraintUnique m)
  · intro hno
    simp only [InsertIgnoringDupes]
    split
    · rename_i code ext msg heq
      split
      · rename_i hext
        subst hext
        exact absurd (Or.inr ⟨code, msg, heq⟩) hno
      · rfl
    · rfl

/-- C8: the requests of `insert` are an initial part of create-destination,
create-staging, bulk-load, merge, in that order, and which part is fixed by
the replies: nothing when schema inference fails, the first request when
the destination cannot be created, the first two when the staging table
cannot be created, the first three when the bulk load fails, and all four
when the bulk load succeeds.  The merge query is issued only after the bulk
load of the same batch was issued and returned no error; when the bulk load
fails, no query is issued and an error is returned. -/
theorem insert_ops_order {α : Type} (env : Replies) (tableName : String) (data : List α) :
    (BigQuery.insert env tableName data).1 <+:
      [Op.create tableName, Op.create (tempName tableName env.now),
       Op.put (tempName tableName env.now) data,
       Op.query (mergeQuery tableName (tempName tableName env.now))] ∧
    ((∃ q, Op.query q ∈ (BigQuery.insert env tableName data).1) →
      (BigQuery.insert env tableName data).1 =
        [Op.create tableName, Op.create (tempName tableName env.now),
         Op.put (tempName tableName env.now) data,
         Op.query (mergeQuery tableName (tempName tableName env.now))] ∧ env.put = none) ∧
    (∀ err, env.put = some err →
      (∀ q, Op.query q ∉ (BigQuery.insert env tableName data).1) ∧
      ∃ e, (BigQuery.insert env tableName data).2 = Outcome.returned (some e)) ∧
    (∀ err, Op.put (tempName tableName env.now) data ∈ (BigQuery.insert env tableName data).1 →
      env.put = some err →
      BigQuery.insert env tableName data =
        ([Op.create tableName, Op.create (tempName tableName env.now),
          Op.put (tempName tableName env.now) data],
         Outcome.returned (some (Errorf "failed to insert rows" err)))) ∧
    (env.inferSchema = none → createFailure env.createTable = none →
      createFailure env.createArrivals = none → env.put = none →
      (BigQuery.insert env tableName data).1 =
        [Op.create tableName, Op.create (tempName tableName env.now),
         Op.put (tempName tableName env.now) data,
         Op.query (mergeQuery tableName (tempName tableName env.now))]) ∧
    (env.inferSchema = none → createFailure env.createTable = none →
      createFailure env.createArrivals = none → ∀ err, env.put = some err →
      (BigQuery.insert env tableName data).1 =
        [Op.create tableName, Op.create (tempName tableName env.now),
         Op.put (tempName tableName env.now) data]) ∧
    (env.inferSchema = none → createFailure env.createTable = none →
      ∀ err, createFailure env.createArrivals = some err →
      (BigQuery.insert env tableName data).1 =
        [Op.create tableName, Op.create (tempName tableName env.now)]) ∧
    (env.inferSchema = none → ∀ err, createFailure env.createTable = some err →
      (BigQuery.insert env tableName data).1 = [Op.create tableName]) ∧
    (∀ err, env.inferSchema = some err → (BigQuery.insert env tableName data).1 = []) := by
  obtain ⟨is, ct, ca, pu, ru, now⟩ := env
  unfold BigQuery.insert
  cases is <;> cases hct : createFailure ct <;> cases hca : createFailure ca <;>
    cases pu <;> cases ru <;>
    simp [hct, hca, List.IsPrefix]

theorem dedupInv_init : DedupInv [] { seen := [], courses := [] } := by
  simp [DedupInv]

theorem dedupInv_step (p : List String) (st : DedupState) (row : DeptSchedule)
    (h : DedupInv p st) : DedupInv (p ++ [row.Name]) (dedupStep st row) := by
  obtain ⟨hseen, hnd, hmem, hord⟩ := h
  unfold dedupStep
  cases hl : st.seen.lookup row.Name with
  | some b =>
    have hin : row.Name ∈ st.courses := by
      by_contra hc
      have := (hseen row.Name).2 hc
      rw [hl] at this
      cases this
    refine ⟨hseen, hnd, ?_, ?_⟩
    · intro n
      rw [hmem n, List.mem_append, List.mem_singleton]
      constructor
      · exact Or.inl
      · rintro (h1 | h1)
        · exact h1
        · subst h1
          exact (hmem _).1 hin
    · refine hord.imp_of_mem ?_
      intro a b ha hb hab
      rw [List.indexOf_append_of_mem ((hmem a).1 ha), List.indexOf_append_of_mem ((hmem b).1 hb)]
      exact hab
  | none =>
    have hnin : row.Name ∉ st.courses := (hseen row.Name).1 hl
    have hninp : row.Name ∉ p := fun hc => hnin ((hmem _).2 hc)
    refine ⟨?_, ?_, ?_, ?_⟩
    · intro n
      simp only [List.lookup_cons, List.mem_append, List.mem_singleton]
      by_cases hn : n = row.Name
      · subst hn
        simp
      · have : (n == row.Name) = false := by simpa using hn
        rw [this]
        simp only [hseen n, hn, or_false]
    · simp only
      rw [List.nodup_append]
      refine ⟨hnd, List.nodup_singleton _, ?_⟩
      intro a ha hb
      rw [List.mem_singleton] at hb
      subst hb
      exact hnin ha
    · intro n
      simp only [List.mem_append, List.mem_singleton, hmem n]
    · simp only
      rw [List.pairwise_append]
      refine ⟨?_, List.pairwise_singleton _ _, ?_⟩
      · refine hord.imp_of_mem ?_
        intro a b ha hb hab
        rw [List.indexOf_append_of_mem ((hmem a).1 ha),
          List.indexOf_append_of_mem ((hmem b).1 hb)]
        exact hab
      · intro a ha b hb
        rw [List.mem_singleton] at hb
        subst hb
        rw [List.indexOf_append_of_mem ((hmem a).1 ha), List.indexOf_append_of_not_mem hninp]
        have := List.indexOf_lt_length.2 ((hmem a).1 ha)
        omega

theorem dedupInv_foldl (rows : List DeptSchedule) :
    ∀ (p : List String) (st : DedupState), DedupInv p st →
      DedupInv (p ++ rows.map (fun r => r.Name)) (rows.foldl dedupStep st) := by
  induction rows with
  | nil => intro p st h; simpa using h
  | cons row rest ih =>
    intro p st h
    have h1 := ih (p ++ [row.Name]) (dedupStep st row) (dedupInv_step p st row h)
    simpa [List.append_assoc] using h1

/-- C9: the course list built by the dedup loop has no repetition, holds
exactly the names of the scraped rows, lists them by first occurrence, and is
as long as the number of distinct names; for rows named Algorithms,
Algorithms, Databases it is Algorithms, Databases (two names). -/
theorem dedupCourses_spec (dept : List DeptSchedule) :
    (dedupCourses dept).Nodup ∧
    (∀ n, n ∈ dedupCourses dept ↔ n ∈ dept.map (fun r => r.Name)) ∧
    (dedupCourses dept).Pairwise
      (fun a b => (dept.map (fun r => r.Name)).indexOf a < (dept.map (fun r => r.Name)).indexOf b) ∧
    (dedupCourses dept).length = (dept.map (fun r => r.Name)).toFinset.card ∧
    dedupCourses
        [⟨"Algorithms", "Spring 2019", "1", none⟩, ⟨"Algorithms", "Spring 2019", "2", none⟩,
         ⟨"Databases", "Spring 2019", "3", none⟩] = ["Algorithms", "Databases"] := by
  have h := dedupInv_foldl dept [] _ dedupInv_init
  simp only [List.nil_append] at h
  obtain ⟨-, hnd, hmem, hord⟩ := h
  refine ⟨hnd, hmem, hord, ?_, by decide⟩
  show (List.foldl dedupStep { seen := [], courses := [] } dept).courses.length = _
  rw [← List.toFinset_card_of_nodup hnd]
  congr 1
  ext n
  simp only [List.mem_toFinset]
  exact hmem n


theorem sqlAnd_eq_true (p q : SqlBool) :
    sqlAnd p q = some true ↔ p = some true ∧ q = some true := by
  rcases p with _ | _ | _ <;> rcases q with _ | _ | _ <;> simp [sqlAnd]

theorem sqlOr_eq_true (p q : SqlBool) :
    sqlOr p q = some true ↔ p = some true ∨ q = some true := by
  rcases p with _ | _ | _ <;> rcases q with _ | _ | _ <;> simp [sqlOr]

theorem sqlEq_eq_true (a b : SqlString) :
    sqlEq a b = some true ↔ ∃ x, a = some x ∧ b = some x := by
  rcases a with _ | x <;> rcases b with _ | y <;> simp [sqlEq, eq_comm]

theorem sqlIsNull_ifNull_eq_true (a b : SqlString) :
    sqlIsNull (sqlIfNull a b) = some true ↔ a = none ∧ b = none := by
  rcases a with _ | x <;> rcases b with _ | y <;> simp [sqlIsNull, sqlIfNull]

/-- The `ON` clause is true exactly when course, term and crn are non-NULL
and equal on both rows and the instructors are non-NULL and equal or both
NULL. -/
theorem mergeOn_eq_true (t s : Row) :
    mergeOn t s = some true ↔
      (∃ c, t.course = some c ∧ s.course = some c) ∧
      (∃ m, t.term = some m ∧ s.term = some m) ∧
      (∃ n, t.crn = some n ∧ s.crn = some n) ∧
      ((∃ i, t.instructor = some i ∧ s.instructor = some i) ∨
        (t.instructor = none ∧ s.instructor = none)) := by
  unfold mergeOn
  rw [sqlAnd_eq_true, sqlAnd_eq_true, sqlAnd_eq_true, sqlOr_eq_true, sqlEq_eq_true,
    sqlEq_eq_true, sqlEq_eq_true, sqlEq_eq_true, sqlIsNull_ifNull_eq_true]
  exact ⟨fun ⟨⟨⟨a, b⟩, c⟩, d⟩ => ⟨a, b, c, d⟩, fun ⟨a, b, c, d⟩ => ⟨⟨⟨a, b⟩, c⟩, d⟩⟩

/-- C1 (as stated, refuted): destination row with NULL instructor and staging
row with instructor Dr. Smith agree on course, term and crn and one
instructor is NULL, yet the `ON` clause is not true (it is NULL) and the
staging row is inserted; the same in the symmetric case. -/
theorem mergeOn_one_null_not_matched :
    (rowUnassigned.course = rowSmith.course ∧ rowUnassigned.term = rowSmith.term ∧
      rowUnassigned.crn = rowSmith.crn ∧
      (rowUnassigned.instructor = rowSmith.instructor ∨
        rowUnassigned.instructor = none ∨ rowSmith.instructor = none)) ∧
    mergeOn rowUnassigned rowSmith = none ∧
    mergeInto [rowUnassigned] [rowSmith] = [rowUnassigned, rowSmith] ∧
    mergeOn rowSmith rowUnassigned = none ∧
    mergeInto [rowSmith] [rowUnassigned] = [rowSmith, rowUnassigned] := by
  decide

/-- C1 (amended): the `ON` clause is true exactly when course, term and crn
are non-NULL and equal on both rows and the instructors are either non-NULL
and equal or both NULL.  In particular, for the destination row with NULL
instructor and the staging row with instructor Dr. Smith the clause is NULL,
the rows are not matched and the staging row is inserted, and likewise in the
symmetric case. -/
theorem mergeOn_true_iff (t s : Row) :
    (mergeOn t s = some true ↔
      (∃ c, t.course = some c ∧ s.course = some c) ∧
      (∃ m, t.term = some m ∧ s.term = some m) ∧
      (∃ n, t.crn = some n ∧ s.crn = some n) ∧
      ((∃ i, t.instructor = some i ∧ s.instructor = some i) ∨
        (t.instructor = none ∧ s.instructor = none))) ∧
    (mergeOn rowUnassigned rowSmith = none ∧ matched [rowUnassigned] rowSmith = false ∧
      mergeInto [rowUnassigned] [rowSmith] = [rowUnassigned, rowSmith]) ∧
    (mergeOn rowSmith rowUnassigned = none ∧ matched [rowSmith] rowUnassigned = false ∧
      mergeInto [rowSmith] [rowUnassigned] = [rowSmith, rowUnassigned]) := by
  exact ⟨mergeOn_eq_true t s, by decide, by decide⟩

/-- C6: rows that carry two different non-NULL instructors are not matched
by the `ON` clause, whatever their course, term and crn (so also when these
are equal), and the staging row is inserted as a new row. -/
theorem mergeOn_distinct_instructors (t s : Row) (a b : String)
    (ht : t.instructor = some a) (hs : s.instructor = some b) (hab : a ≠ b) :
    mergeOn t s ≠ some true ∧ matched [t] s = false ∧ mergeInto [t] [s] = [t, s] := by
  have h1 : mergeOn t s ≠ some true := by
    intro h
    rcases ((mergeOn_eq_true t s).1 h).2.2.2 with ⟨i, hi, hj⟩ | ⟨hi, -⟩
    · rw [ht] at hi
      rw [hs] at hj
      exact hab ((Option.some.inj hi).trans (Option.some.inj hj).symm)
    · rw [ht] at hi
      cases hi
  have h2 : matched [t] s = false := by
    simp [matched, h1]
  refine ⟨h1, h2, ?_⟩
  simp [mergeInto, h2]

/-- Witness of C6 on the spec example: destination Dr. Smith, staging
Dr. Jones, same course, term and crn. -/
theorem mergeOn_distinct_instructors_witness :
    mergeOn rowSmith rowJones ≠ some true ∧ matched [rowSmith] rowJones = false ∧
      mergeInto [rowSmith] [rowJones] = [rowSmith, rowJones] :=
  mergeOn_distinct_instructors rowSmith rowJones "Dr. Smith" "Dr. Jones" rfl rfl (by decide)

/-- C2 (code evaluated at the failing input): saving the sample aggregate
twice on a new store succeeds both times and keeps one course row, but the
second call inserts every feature row again. -/
theorem Save_twice_duplicates_features :
    (SqliteStorage.Save (Db.fresh 100) sampleDataset.toPersistable).1 = none ∧
    (SqliteStorage.Save (SqliteStorage.Save (Db.fresh 100) sampleDataset.toPersistable).2
        sampleDataset.toPersistable).1 = none ∧
    (SqliteStorage.Save (Db.fresh 100) sampleDataset.toPersistable).2.committed =
      { courses := [{ ID := 1, course := sampleCourse }],
        isq := [{ ID := 1, key := { CourseID := 0 }, isq := { payload := "isq-1" } },
                { ID := 2, key := { CourseID := 0 }, isq := { payload := "isq-2" } }],
        grades := [{ ID := 1, key := { CourseID := 0 }, grades := { payload := "grades-1" } }],
        sections :=
          [{ ID := 1, key := { CourseID := 0 }, schedule := { payload := "schedule-1" } }] } ∧
    (SqliteStorage.Save (SqliteStorage.Save (Db.fresh 100) sampleDataset.toPersistable).2
        sampleDataset.toPersistable).2.committed =
      { courses := [{ ID := 1, course := sampleCourse }],
        isq := [{ ID := 1, key := { CourseID := 0 }, isq := { payload := "isq-1" } },
                { ID := 2, key := { CourseID := 0 }, isq := { payload := "isq-2" } },
                { ID := 3, key := { CourseID := 0 }, isq := { payload := "isq-1" } },
                { ID := 4, key := { CourseID := 0 }, isq := { payload := "isq-2" } }],
        grades := [{ ID := 1, key := { CourseID := 0 }, grades := { payload := "grades-1" } },
                   { ID := 2, key := { CourseID := 0 }, grades := { payload := "grades-1" } }],
        sections :=
          [{ ID := 1, key := { CourseID := 0 }, schedule := { payload := "schedule-1" } },
           { ID := 2, key := { CourseID := 0 }, schedule := { payload := "schedule-1" } }] } := by
  decide

/-- On the error path `Save` hands back the error of `Persist` unchanged and
leaves the database exactly as `Persist` left it: nothing is committed and the
transaction is still open. -/
theorem Save_error_path (db db1 db2 : Db) (v : Persistable) (err : GoError)
    (hb : Begin db = Except.ok db1)
    (hp : v.Persist (InsertIgnoringDupes gorpTx) db1 = (some err, db2)) :
    SqliteStorage.Save db v = (some err, db2) := by
  simp only [SqliteStorage.Save, hb, hp]

/-- C3 (code evaluated at the failing input): the file has no table
`sections`, so the insert of the third of four features fails with the
statement-level error `no such table: sections`, which is no duplicate error
and leaves the transaction as it is; `Save` returns that error and commits
nothing, but the transaction is not rolled back: it stays open and still
holds the course row and the two feature rows inserted before the failure. -/
theorem Save_failure_leaves_transaction_open :
    SqliteStorage.Save storeWithoutSections sampleDataset.toPersistable =
      (some (errNoSuchTable "sections"),
       { committed := Tables.empty,
         tx := some
           { courses := [{ ID := 1, course := sampleCourse }],
             isq := [{ ID := 1, key := { CourseID := 0 }, isq := { payload := "isq-1" } }],
             grades := [{ ID := 1, key := { CourseID := 0 }, grades := { payload := "grades-1" } }],
             sections := [] },
         room := 97,
         commitErr := none,
         missing := ["sections"] }) := by
  decide

theorem onlyZeroKeyedSince_refl (log : List (List Entity)) : OnlyZeroKeyedSince log log :=
  fun _ hl => Or.inl hl

theorem onlyZeroKeyedSince_trans {a b c : List (List Entity)}
    (hab : OnlyZeroKeyedSince a b) (hbc : OnlyZeroKeyedSince b c) : OnlyZeroKeyedSince a c := by
  intro l hl
  rcases hbc l hl with h | h
  · exact hab l h
  · exact Or.inr h

theorem feature_Persist_zeroKeyed {σ : Type} (t : Transaction σ) (f : Feature) (s : σ)
    (log : List (List Entity)) :
    OnlyZeroKeyedSince log (f.Persist (recording t) { CourseID := 0 } (s, log)).2.2 := by
  intro l hl
  cases f <;>
    simp only [Feature.Persist, Isq.Persist, Grades.Persist, Schedule.Persist, recording,
      List.mem_append, List.mem_singleton] at hl <;>
    rcases hl with hl | hl
  all_goals first
    | exact Or.inl hl
    | (subst hl; right; intro e he; rw [List.mem_singleton] at he; subst he; rfl)

theorem persistFeatures_zeroKeyed {σ : Type} (t : Transaction σ) (fs : List Feature) :
    ∀ (s : σ) (log : List (List Entity)),
      OnlyZeroKeyedSince log (persistFeatures (recording t) { CourseID := 0 } fs (s, log)).2.2 := by
  induction fs with
  | nil => intro s log; exact onlyZeroKeyedSince_refl log
  | cons f rest ih =>
    intro s log
    have h1 := feature_Persist_zeroKeyed t f s log
    unfold persistFeatures
    rcases hr : f.Persist (recording t) { CourseID := 0 } (s, log) with ⟨_ | err, s1, log1⟩
    · rw [hr] at h1
      exact onlyZeroKeyedSince_trans h1 (ih s1 log1)
    · rw [hr] at h1
      exact h1

/-- For every dataset and every transaction, each entity that
`Dataset.Persist` passes to `Insert` is zero-keyed: no feature is ever sent
with the key of a stored course. -/
theorem Persist_sends_zero_keys {σ : Type} (t : Transaction σ) (d : Dataset) (s : σ)
    (log : List (List Entity)) :
    OnlyZeroKeyedSince log (d.Persist (recording t) (s, log)).2.2 := by
  unfold Dataset.Persist
  generalize d.entries = entries
  induction entries generalizing s log with
  | nil => exact onlyZeroKeyedSince_refl log
  | cons entry rest ih =>
    obtain ⟨course, features⟩ := entry
    have h1 : OnlyZeroKeyedSince log
        ((CourseEntity.Persist { ID := 0, course := course } (recording t) (s, log)).2.2) := by
      intro l hl
      simp only [CourseEntity.Persist, recording, List.mem_append, List.mem_singleton] at hl
      rcases hl with hl | hl
      · exact Or.inl hl
      · subst hl
        right
        intro e he
        rw [List.mem_singleton] at he
        subst he
        rfl
    unfold persistEntries
    dsimp only
    rcases hr : CourseEntity.Persist { ID := 0, course := course } (recording t) (s, log)
      with ⟨_ | err, s1, log1⟩
    · rw [hr] at h1
      dsimp only
      have h2 := persistFeatures_zeroKeyed t features s1 log1
      rcases hf : persistFeatures (recording t) { CourseID := 0 } features (s1, log1)
        with ⟨_ | err, s2, log2⟩
      · rw [hf] at h2
        exact onlyZeroKeyedSince_trans h1 (onlyZeroKeyedSince_trans h2 (ih s2 log2))
      · rw [hf] at h2
        exact onlyZeroKeyedSince_trans h1 h2
    · rw [hr] at h1
      exact h1

/-- C4 (code evaluated at the failing input): in a transaction on a new store
the course row of the sample aggregate receives key 1, and every feature row
is inserted with `CourseID` 0, the key of no course row. -/
theorem Persist_features_carry_zero_key :
    sampleDataset.Persist gorpTx { Db.fresh 100 with tx := some Tables.empty } =
      (none,
       { committed := Tables.empty,
         tx := some
           { courses := [{ ID := 1, course := sampleCourse }],
             isq := [{ ID := 1, key := { CourseID := 0 }, isq := { payload := "isq-1" } },
                     { ID := 2, key := { CourseID := 0 }, isq := { payload := "isq-2" } }],
             grades := [{ ID := 1, key := { CourseID := 0 }, grades := { payload := "grades-1" } }],
             sections :=
               [{ ID := 1, key := { CourseID := 0 }, schedule := { payload := "schedule-1" } }] },
         room := 95,
         commitErr := none }) := by
  decide

theorem createFailure_eq_none (o : Option GoError) :
    createFailure o = none ↔ ∀ err, o = some err → isDuplicateError err = true := by
  cases o with
  | none => simp [createFailure]
  | some e => cases h : isDuplicateError e <;> simp [createFailure, h]

/-- The call returns nil exactly when schema inference, both table creations
(an already-exists answer counting as success), the bulk load and the merge
query all succeeded. -/
theorem insert_returns_nil_iff {α : Type} (env : Replies) (tableName : String) (data : List α) :
    (BigQuery.insert env tableName data).2 = Outcome.returned none ↔
      env.inferSchema = none ∧
      (∀ err, env.createTable = some err → isDuplicateError err = true) ∧
      (∀ err, env.createArrivals = some err → isDuplicateError err = true) ∧
      env.put = none ∧ env.run = none := by
  obtain ⟨is, ct, ca, pu, ru, now⟩ := env
  simp only [← createFailure_eq_none]
  unfold BigQuery.insert
  cases is <;> cases hct : createFailure ct <;> cases hca : createFailure ca <;>
    cases pu <;> cases ru <;> simp [hct, hca]

/-- C7 (code evaluated at the failing input): when every phase succeeds and
only the merge query fails, `insert` does not return an error to its caller;
it panics with the error value instead, for every error, table and batch, and
in particular for the sample replies. -/
theorem insert_merge_failure_panics :
    (∀ (err : GoError) (tableName : String) (data : List Row) (now : Time),
      (BigQuery.insert
          { inferSchema := none, createTable := none, createArrivals := none, put := none,
            run := some err, now := now } tableName data).2 =
        Outcome.panicked (Errorf "failed to execute query" err)) ∧
    BigQuery.insert repliesRunFails "departments" [rowSmith] =
      ([Op.create "departments", Op.create (tempName "departments" repliesRunFails.now),
        Op.put (tempName "departments" repliesRunFails.now) [rowSmith],
        Op.query (mergeQuery "departments" (tempName "departments" repliesRunFails.now))],
       Outcome.panicked (GoError.other "failed to execute query: backend error")) := by
  constructor
  · intro err tableName data now
    simp [BigQuery.insert, createFailure]
  · simp [BigQuery.insert, repliesRunFails, isDuplicateError, Errorf, GoError.Error,
      createFailure]

theorem digitChar_inj : ∀ a < 10, ∀ b < 10, digitChar a = digitChar b → a = b := by
  decide

theorem digitChar_ne_minus : ∀ a < 10, digitChar a ≠ Char.ofNat 45 := by
  decide

theorem map_digitChar_inj : ∀ (xs ys : List Nat), (∀ x ∈ xs, x < 10) → (∀ y ∈ ys, y < 10) →
    xs.map digitChar = ys.map digitChar → xs = ys := by
  intro xs
  induction xs with
  | nil => intro ys _ _ h; cases ys with
    | nil => rfl
    | cons y ys => simp at h
  | cons x xs ih =>
    intro ys hx hy h
    cases ys with
    | nil => simp at h
    | cons y ys =>
      simp only [List.map_cons, List.cons.injEq] at h
      have h1 := digitChar_inj x (hx x (List.mem_cons_self _ _)) y (hy y (List.mem_cons_self _ _)) h.1
      have h2 := ih ys (fun a ha => hx a (List.mem_cons_of_mem _ ha))
        (fun a ha => hy a (List.mem_cons_of_mem _ ha)) h.2
      rw [h1, h2]

/-- The digit characters of a positive number. -/
theorem formatNat_data_pos (n : Nat) (hn : n ≠ 0) :
    (formatNat n).data = ((Nat.digits 10 n).reverse.map digitChar) := by
  simp [formatNat, hn]

theorem formatNat_data_head (n : Nat) :
    ∃ d rest, d < 10 ∧ (formatNat n).data = digitChar d :: rest := by
  by_cases hn : n = 0
  · subst hn
    exact ⟨0, [], by decide, by decide⟩
  · rw [formatNat_data_pos n hn]
    have hne : (Nat.digits 10 n).reverse ≠ [] := by
      simpa using (Nat.digits_ne_nil_iff_ne_zero.2 hn)
    cases hr : (Nat.digits 10 n).reverse with
    | nil => exact absurd hr hne
    | cons d rest =>
      refine ⟨d, rest.map digitChar, ?_, by simp⟩
      have : d ∈ (Nat.digits 10 n).reverse := by rw [hr]; exact List.mem_cons_self _ _
      exact Nat.digits_lt_base (by decide) (List.mem_reverse.1 this)

theorem formatNat_injective (n m : Nat) (h : formatNat n = formatNat m) : n = m := by
  have key : ∀ k, k ≠ 0 → formatNat k ≠ formatNat 0 := by
    intro k hk hc
    have h1 := congrArg String.data hc
    rw [formatNat_data_pos k hk] at h1
    have h0 : (formatNat 0).data = [digitChar 0] := by decide
    rw [h0] at h1
    have h2 : (Nat.digits 10 k).reverse = [0] := by
      apply map_digitChar_inj _ _ _ _ (by simpa using h1)
      · intro x hx
        exact Nat.digits_lt_base (by decide) (List.mem_reverse.1 hx)
      · intro y hy
        simp at hy
        omega
    have h3 : Nat.digits 10 k = [0] := by
      have := congrArg List.reverse h2
      simpa using this
    have h4 := Nat.getLast_digit_ne_zero 10 hk
    simp [h3] at h4
  by_cases hn : n = 0
  · subst hn
    by_contra hm
    exact key m (fun h0 => hm h0.symm) h.symm
  · by_cases hm : m = 0
    · subst hm
      exact absurd h (key n hn)
    · have h1 := congrArg String.data h
      rw [formatNat_data_pos n hn, formatNat_data_pos m hm] at h1
      have h2 := map_digitChar_inj _ _
        (fun x hx => Nat.digits_lt_base (by decide) (List.mem_reverse.1 hx))
        (fun x hx => Nat.digits_lt_base (by decide) (List.mem_reverse.1 hx)) h1
      have h3 := congrArg List.reverse h2
      simp only [List.reverse_reverse] at h3
      exact Nat.digits_inj_iff.1 h3

theorem Itoa_injective (i j : Int) (h : Itoa i = Itoa j) : i = j := by
  have hminus : ("-" : String).data = [Char.ofNat 45] := by decide
  have clash : ∀ (a b : Nat), formatNat a ≠ "-" ++ formatNat b := by
    intro a b hc
    obtain ⟨d, rest, hd, hdata⟩ := formatNat_data_head a
    have h1 := congrArg String.data hc
    rw [hdata, String.data_append, hminus] at h1
    simp only [List.singleton_append, List.cons.injEq] at h1
    exact digitChar_ne_minus d hd h1.1
  cases i with
  | ofNat n =>
    cases j with
    | ofNat m =>
      simp only [Itoa] at h
      rw [formatNat_injective n m h]
    | negSucc m =>
      simp only [Itoa] at h
      exact absurd h (clash _ _)
  | negSucc n =>
    cases j with
    | ofNat m =>
      simp only [Itoa] at h
      exact absurd h.symm (clash _ _)
    | negSucc m =>
      simp only [Itoa] at h
      have h1 := congrArg String.data h
      simp only [String.data_append, List.append_cancel_left_eq] at h1
      have h2 := formatNat_injective _ _ (String.ext h1)
      have : n = m := by omega
      rw [this]

/-- The staging names of two calls for one destination are equal exactly
when the two clock readings fall in the same Unix second. -/
theorem tempName_eq_iff (tableName : String) (t1 t2 : Time) :
    tempName tableName t1 = tempName tableName t2 ↔ t1.Unix = t2.Unix := by
  constructor
  · intro h
    have h1 := congrArg String.data h
    simp only [tempName, String.data_append, List.append_cancel_left_eq] at h1
    exact Itoa_injective _ _ (String.ext h1)
  · intro h
    simp only [tempName, h]


/-- C10 (code evaluated at the failing input): two calls for the same
destination half a second apart, within one Unix second, compute the same
staging table name. -/
theorem tempName_same_second_collides :
    ({ sec := 1550000000, nsec := 0 } : Time) ≠ { sec := 1550000000, nsec := 500000000 } ∧
    tempName "departments" { sec := 1550000000, nsec := 0 } = "departments_1550000000" ∧
    tempName "departments" { sec := 1550000000, nsec := 500000000 } = "departments_1550000000" := by
  refine ⟨by decide, ?_, ?_⟩ <;>
    simp [tempName, Itoa, Time.Unix, formatNat, digitChar]


end Isqool
